import Mathlib

/-!
Verification of the MRR snapshot-to-metrics pipeline.

The embedded program consists of:
* `etl/extract_load.py` — loads `sub_snapshots` into the warehouse and builds
  the derived views (`create_views`): `mrr_monthly`, `mrr_by_plan`,
  `arppu_monthly`, `customers_by_plan`;
* `api/main.py` — the FastAPI read layer (`query_bq`, `get_mrr`, `get_churn`,
  `health`);
* `tests/test_snapshots.py` — the snapshot-integrity validation checks;
* `scripts/validate_mrr.py` — cross-validation against the live billing data.

SQL aggregation over the snapshot table is embedded relationally: a view is a
function from the list of snapshot rows to the list of output records, with
`GROUP BY` realised as aggregation over the sorted, deduplicated key list and
`ROUND(x, 2)` as exact-rational rounding to two decimals (half away from
zero, BigQuery's convention).
-/

namespace MrrPipeline

/-- A subscription snapshot row (one per customer per month), as produced into
`config/sub_snapshots.json` and loaded into the `sub_snapshots` table by
`etl/extract_load.py`.  `status` is an `Option` because a snapshot JSON row
may omit the field (readers default it to "active", see
`scripts/validate_mrr.py`); the BigQuery load schema in `extract_load.main`
does not declare a `status` column at all. -/
structure Snap where
  month : String
  customer_id : String
  subscription_id : String
  plan : String
  price_id : String
  price_amount : Int
  screens : Int
  mrr_cents : Int
  status : Option String
deriving DecidableEq

/-- Columns of the `mrr_monthly` view as created by
`extract_load.create_views` (View 1). -/
def mrrMonthlyViewColumns : List String :=
  ["month", "mrr_amount", "paying_customers", "total_customers",
   "active_subscriptions"]

/-- Columns selected from `mrr_monthly` by `api/main.get_mrr`. -/
def apiMrrSelectColumns : List String :=
  ["month", "mrr_amount", "paying_customers", "total_customers",
   "active_subscriptions", "past_due_customers", "at_risk_mrr"]

/-- Columns of the `sub_snapshots` load schema in `extract_load.main`
(the `load_to_bigquery` call for the snapshots table). -/
def subSnapshotsLoadColumns : List String :=
  ["month", "customer_id", "subscription_id", "plan", "price_id",
   "price_amount", "screens", "mrr_cents"]

/-- Names of the views created by `extract_load.create_views`. -/
def etlCreatedViews : List String :=
  ["mrr_monthly", "mrr_by_plan", "arppu_monthly", "customers_by_plan"]

/-- The view queried by `api/main.get_churn`. -/
def apiChurnSourceView : String := "churn_monthly"

/-- Columns selected from `churn_monthly` by `api/main.get_churn`. -/
def apiChurnSelectColumns : List String :=
  ["month", "total_customers", "prev_customers", "churn_rate"]

/-- Embeds `api/main.health`: on a failing connectivity probe the endpoint returns
status code 503 with a fixed body; on success, 200 with a fixed body.  The
raw error text of the caught exception (`errText`) is logged server-side only
and never flows into the response. -/
def healthResponse (ok : Bool) (_errText : String) :
    Nat × List (String × String) :=
  if ok then (200, [("status", "ok"), ("bigquery", "connected")])
  else (503, [("status", "degraded"), ("bigquery", "unavailable")])

/-- Embeds `api/main.query_bq` error translation: a `TimeoutError` becomes
HTTP 504 with detail "Query timed out"; any other exception becomes HTTP 500
with detail "BigQuery query failed".  The underlying error text (`errText`)
is logged server-side only and never flows into the surfaced detail. -/
def queryBqFailure (isTimeout : Bool) (_errText : String) : Nat × String :=
  if isTimeout then (504, "Query timed out")
  else (500, "BigQuery query failed")

/-- Embeds `scripts/validate_mrr.fetch_stripe_subscription`: maps a live billing
status onto the snapshot status vocabulary ("past_due" stays "past_due",
everything else becomes "active"). -/
def stripeToSnapshotStatus (s : String) : String :=
  if s = "past_due" then "past_due" else "active"

/-- Embeds `scripts/validate_mrr.fetch_stripe_subscription`: a subscription whose
live status is canceled or incomplete_expired never reaches the field
comparison (the caller records a different, non-status mismatch); otherwise
the mapped snapshot status is carried to the comparison. -/
def fetchedStatus (s : String) : Option String :=
  if s = "canceled" ∨ s = "incomplete_expired" then none
  else some (stripeToSnapshotStatus s)

/-- Embeds `scripts/validate_mrr.main`: the snapshot-side status used in the
comparison, defaulting a missing field to "active"
(`snap.get("status", "active")`). -/
def snapStatus (r : Snap) : String := r.status.getD "active"

/-- Embeds `scripts/validate_mrr.main`: whether the status-comparison step reports a
status mismatch for row `r` when the live status is `live`.  The comparison
is reached only for live subscriptions (`fetchedStatus` is `some`). -/
def statusMismatch (live : String) (r : Snap) : Bool :=
  match fetchedStatus live with
  | none => false
  | some st => decide (st ≠ snapStatus r)

/-- C1: the claim says `mrr_monthly` carries `past_due_customers` and
`at_risk_mrr` and that `get_mrr` returns both fields for every month.  The
code cannot do this: `get_mrr` does select both columns, but
`create_views` defines `mrr_monthly` without either of them, and the
`sub_snapshots` load schema does not even carry the `status` column the
aggregates would need — so every `/api/mrr` request fails in the warehouse.
The spec (and the repository's own API layer and snapshot tests, which
demand a `status` field and past-due rows) is the evident intent; the ETL
omission is the bug. -/
theorem mrrMonthly_missing_past_due_columns :
    ("past_due_customers" ∈ apiMrrSelectColumns ∧
      "at_risk_mrr" ∈ apiMrrSelectColumns) ∧
    ("past_due_customers" ∉ mrrMonthlyViewColumns ∧
      "at_risk_mrr" ∉ mrrMonthlyViewColumns) ∧
    "status" ∉ subSnapshotsLoadColumns := by
  decide

/-- C2: the claim describes the `churn_monthly` series and says `get_churn`
returns it ordered by month.  The code cannot: `get_churn` selects
`prev_customers` and `churn_rate` from a view named `churn_monthly`, but
`create_views` creates only `mrr_monthly`, `mrr_by_plan`, `arppu_monthly`
and `customers_by_plan` — no `churn_monthly` view is ever created anywhere
in the repository, so every `/api/churn` request fails.  The endpoint's
existence shows the spec is the intent; the missing view is the bug. -/
theorem churnMonthly_view_never_created :
    apiChurnSourceView ∉ etlCreatedViews ∧
    "churn_rate" ∈ apiChurnSelectColumns ∧
    "prev_customers" ∈ apiChurnSelectColumns := by
  decide

/-- C5: on a backing-store failure the health endpoint responds 503 with the
body status=degraded, bigquery=unavailable (the spec's abstract field name
`backing_store` is `bigquery` in the code), whatever the raw error text: the
response is a constant function of the error, so no substring of the raw
error — path, secret or otherwise — can appear in it. -/
theorem health_degraded_body_fixed :
    (∀ e : String,
      healthResponse false e =
        (503, [("status", "degraded"), ("bigquery", "unavailable")])) ∧
    ∀ e₁ e₂ : String, healthResponse false e₁ = healthResponse false e₂ := by
  constructor
  · intro e
    rfl
  · intro e₁ e₂
    rfl

/-- C6: every exception raised by the backing store inside `query_bq` is
surfaced as one of two fixed generic messages chosen by the exception's type
only (504 "Query timed out" for a timeout, 500 "BigQuery query failed"
otherwise); the surfaced pair is independent of the underlying error text,
so no part of the error content, connection details, paths or credentials
can reach the caller. -/
theorem queryBq_error_generic :
    ∀ (t : Bool) (e e' : String),
      queryBqFailure t e = queryBqFailure t e' ∧
      (queryBqFailure t e = (504, "Query timed out") ∨
        queryBqFailure t e = (500, "BigQuery query failed")) := by
  intro t e e'
  refine ⟨rfl, ?_⟩
  unfold queryBqFailure
  by_cases h : t = true
  · simp [h]
  · simp [h]

/-- C10: a snapshot row with no `status` field is compared as if its status
were "active", so the cross-validation's status-comparison step reports a
mismatch for it exactly when the live subscription's status maps to
"past_due" (and never for canceled / incomplete_expired statuses, which do
not reach the comparison). -/
theorem missing_status_treated_as_active (live : String) (r : Snap)
    (h : r.status = none) :
    statusMismatch live r = true ↔ stripeToSnapshotStatus live = "past_due" := by
  unfold statusMismatch fetchedStatus stripeToSnapshotStatus snapStatus
  rw [h]
  by_cases hc : live = "canceled" ∨ live = "incomplete_expired"
  · have hp : ¬ live = "past_due" := by
      rcases hc with hc | hc <;> subst hc <;> decide
    simp [hc, hp]
  · by_cases hp : live = "past_due"
    · simp [hc, hp]
    · simp [hc, hp]

/-- A concrete instance of `missing_status_treated_as_active`: a row with no
status field, checked against a live status of "past_due", is reported as a
status mismatch. -/
theorem missing_status_treated_as_active_witness :
    (Snap.mk "2024-01" "cus_1" "sub_1" "standard" "price_1" 1000 3 3000
        none).status = none ∧
    (statusMismatch "past_due"
        (Snap.mk "2024-01" "cus_1" "sub_1" "standard" "price_1" 1000 3 3000
          none) = true ↔
      stripeToSnapshotStatus "past_due" = "past_due") :=
  ⟨rfl, missing_status_treated_as_active "past_due" _ rfl⟩

/-- BigQuery `ROUND(x, 2)`: round to two decimal places, halves away from
zero, in exact rational arithmetic. -/
def round2 (q : ℚ) : ℚ :=
  if 0 ≤ q then (⌊q * 100 + 1 / 2⌋ : ℚ) / 100
  else -((⌊-(q * 100) + 1 / 2⌋ : ℚ) / 100)

/-- Rounding an integer number of cents over 100 to two decimals is exact:
`ROUND(SUM(mrr_cents) / 100.0, 2)` equals `SUM(mrr_cents) / 100` whenever the
sum is an integer. -/
lemma round2_int_div_100 (n : Int) : round2 ((n : ℚ) / 100) = (n : ℚ) / 100 := by
  have hhalf : ⌊(1 / 2 : ℚ)⌋ = 0 := by norm_num
  unfold round2
  by_cases h : (0 : ℚ) ≤ (n : ℚ) / 100
  · rw [if_pos h]
    have h100 : ((n : ℚ) / 100) * 100 + 1 / 2 = 1 / 2 + (n : ℚ) := by
      field_simp
      ring
    rw [h100, Int.floor_add_int, hhalf, Int.cast_add, Int.cast_zero]
    simp
  · rw [if_neg h]
    have h100 : -(((n : ℚ) / 100) * 100) + 1 / 2 = 1 / 2 + ((-n : Int) : ℚ) := by
      push_cast
      field_simp
      ring
    rw [h100, Int.floor_add_int, hhalf, Int.cast_add, Int.cast_zero]
    push_cast
    ring

/-- The rows of the snapshot table belonging to month `m`
(the effect of `GROUP BY month` for one group). -/
def monthRows (rows : List Snap) (m : String) : List Snap :=
  rows.filter (fun r => r.month == m)

/-- The `SUM(mrr_cents)` aggregate over a group of rows: exact integer summation. -/
def sumCents (rows : List Snap) : Int := (rows.map Snap.mrr_cents).sum

/-- The `mrr_monthly.mrr_amount` column for one group:
`ROUND(SUM(mrr_cents) / 100.0, 2)`. -/
def mrrAmount (rows : List Snap) : ℚ := round2 ((sumCents rows : ℚ) / 100)

/-- The `mrr_monthly.paying_customers` column for one group:
`COUNT(DISTINCT CASE WHEN mrr_cents > 0 THEN customer_id END)`. -/
def payingCustomers (rows : List Snap) : Nat :=
  ((rows.filter (fun r => decide (0 < r.mrr_cents))).map
    Snap.customer_id).dedup.length

/-- The `mrr_monthly.total_customers` column for one group:
`COUNT(DISTINCT customer_id)`. -/
def totalCustomers (rows : List Snap) : Nat :=
  (rows.map Snap.customer_id).dedup.length

/-- The `mrr_monthly.active_subscriptions` column for one group:
`COUNT(DISTINCT subscription_id)`. -/
def activeSubscriptions (rows : List Snap) : Nat :=
  (rows.map Snap.subscription_id).dedup.length

/-- The `arppu_monthly.arppu` column for month `m`: the view reads `mrr_amount` and
`paying_customers` from `mrr_monthly` and computes
`CASE WHEN paying_customers > 0 THEN ROUND(mrr_amount / paying_customers, 2)
ELSE 0 END`. -/
def arppu (rows : List Snap) (m : String) : ℚ :=
  if 0 < payingCustomers (monthRows rows m) then
    round2 (mrrAmount (monthRows rows m) /
      (payingCustomers (monthRows rows m) : ℚ))
  else 0

/-- C3: although the `arppu_monthly` view divides the already-`ROUND`ed
`mrr_amount`, that intermediate rounding is exact (the summand is an integer
number of cents), so for every month with paying customers the published
`arppu` equals the exact integer sum of the month's `mrr_cents` divided by
`100 * paying_customers` and rounded once, at the output boundary. -/
theorem arppu_exact_sum_rounding (rows : List Snap) (m : String)
    (h : 0 < payingCustomers (monthRows rows m)) :
    arppu rows m =
      round2 ((sumCents (monthRows rows m) : ℚ) /
        (100 * (payingCustomers (monthRows rows m) : ℚ))) := by
  unfold arppu
  rw [if_pos h]
  unfold mrrAmount
  rw [round2_int_div_100, div_div]

/-- The spec's own example batch: customer A on standard with 3 screens
(3000 cents), customer B on free (0 cents), both in month 2024-01. -/
def exA : Snap :=
  Snap.mk "2024-01" "cus_A" "sub_A" "standard" "price_std" 1000 3 3000
    (some "active")

/-- Second row of the spec's example batch. -/
def exB : Snap :=
  Snap.mk "2024-01" "cus_B" "sub_B" "free" "price_free" 0 1 0 (some "active")

/-- The spec's example batch as a list. -/
def exBatch : List Snap := [exA, exB]

/-- A concrete instance of `arppu_exact_sum_rounding` on the spec's example
batch: one paying customer, 3000 cents, arppu 30. -/
theorem arppu_exact_sum_rounding_witness :
    0 < payingCustomers (monthRows exBatch "2024-01") ∧
    arppu exBatch "2024-01" =
      round2 ((sumCents (monthRows exBatch "2024-01") : ℚ) /
        (100 * (payingCustomers (monthRows exBatch "2024-01") : ℚ))) :=
  ⟨by decide, arppu_exact_sum_rounding exBatch "2024-01" (by decide)⟩

/-- C4: the `CASE WHEN paying_customers > 0` guard makes `arppu` total — a
month with no paying customers yields 0 with no division-by-zero fault, and
a month with paying customers yields `ROUND(mrr_amount / paying_customers,
2)`. -/
theorem arppu_division_guard (rows : List Snap) (m : String) :
    (payingCustomers (monthRows rows m) = 0 → arppu rows m = 0) ∧
    (0 < payingCustomers (monthRows rows m) →
      arppu rows m =
        round2 (mrrAmount (monthRows rows m) /
          (payingCustomers (monthRows rows m) : ℚ))) := by
  constructor
  · intro h
    unfold arppu
    rw [if_neg]
    omega
  · intro h
    unfold arppu
    rw [if_pos h]

/-- Concrete instances of `arppu_division_guard`: the empty batch has no
paying customers and arppu 0; the spec's example batch has a paying customer
and the rounded quotient. -/
theorem arppu_division_guard_witness :
    payingCustomers (monthRows [] "2024-01") = 0 ∧
    arppu [] "2024-01" = 0 ∧
    0 < payingCustomers (monthRows exBatch "2024-01") ∧
    arppu exBatch "2024-01" =
      round2 (mrrAmount (monthRows exBatch "2024-01") /
        (payingCustomers (monthRows exBatch "2024-01") : ℚ)) :=
  ⟨rfl, (arppu_division_guard [] "2024-01").1 rfl, by decide,
    (arppu_division_guard exBatch "2024-01").2 (by decide)⟩

/-- The `CASE plan ... END` expression of `create_views`: plan key to
canonical display name, unknown keys to "Unknown". -/
def planName (p : String) : String :=
  if p = "free" then "Free"
  else if p = "standard" then "Standard"
  else if p = "pro_plus" then "Pro Plus"
  else if p = "engage" then "Engage"
  else if p = "enterprise" then "Enterprise"
  else "Unknown"

/-- The `GROUP BY month, plan_name` key of a row. -/
def snapPlanKey (r : Snap) : String × String := (r.month, planName r.plan)

/-- The `ORDER BY month ASC, plan_name ASC` ordering on group keys:
lexicographic on (month, plan display name). -/
def keyLe (a b : String × String) : Prop :=
  a.1 < b.1 ∨ (a.1 = b.1 ∧ a.2 ≤ b.2)

instance : DecidableRel keyLe := fun a b => by
  unfold keyLe
  infer_instance

instance : IsTotal (String × String) keyLe := by
  constructor
  intro a b
  unfold keyLe
  rcases lt_trichotomy a.1 b.1 with h | h | h
  · exact Or.inl (Or.inl h)
  · rcases le_total a.2 b.2 with h2 | h2
    · exact Or.inl (Or.inr ⟨h, h2⟩)
    · exact Or.inr (Or.inr ⟨h.symm, h2⟩)
  · exact Or.inr (Or.inl h)

instance : IsTrans (String × String) keyLe := by
  constructor
  intro a b c hab hbc
  unfold keyLe at hab hbc ⊢
  rcases hab with h1 | ⟨h1, h2⟩ <;> rcases hbc with h3 | ⟨h3, h4⟩
  · exact Or.inl (lt_trans h1 h3)
  · exact Or.inl (h3 ▸ h1)
  · exact Or.inl (h1 ▸ h3)
  · exact Or.inr ⟨h1.trans h3, le_trans h2 h4⟩

instance : IsAntisymm (String × String) keyLe := by
  constructor
  intro a b hab hba
  unfold keyLe at hab hba
  rcases hab with h1 | ⟨h1, h2⟩ <;> rcases hba with h3 | ⟨h3, h4⟩
  · exact absurd h3 (lt_asymm h1)
  · exact absurd (h3 ▸ h1) (lt_irrefl a.1)
  · exact absurd (h1 ▸ h3) (lt_irrefl a.1)
  · exact Prod.ext h1 (le_antisymm h2 h4)

/-- The ordered list of distinct `(month, plan_name)` group keys of a batch:
`GROUP BY month, plan_name ... ORDER BY month ASC, plan_name ASC`. -/
def groupKeys (rows : List Snap) : List (String × String) :=
  List.insertionSort keyLe (rows.map snapPlanKey).dedup

/-- Whether a row belongs to the `(month, plan_name)` group `k`. -/
def inGroup (k : String × String) (r : Snap) : Bool := decide (snapPlanKey r = k)

/-- The `mrr_by_plan` view: one output row per distinct (month, plan display
name), in ascending lexicographic key order, with
`ROUND(SUM(mrr_cents) / 100.0, 2)` aggregated over the group. -/
def mrr_by_plan (rows : List Snap) : List (String × String × ℚ) :=
  (groupKeys rows).map fun k => (k.1, k.2, mrrAmount (rows.filter (inGroup k)))

/-- The `customers_by_plan` view: one output row per distinct (month, plan
display name), in ascending lexicographic key order, with
`COUNT(DISTINCT customer_id)` aggregated over the group. -/
def customers_by_plan (rows : List Snap) : List (String × String × Nat) :=
  (groupKeys rows).map fun k =>
    (k.1, k.2, totalCustomers (rows.filter (inGroup k)))

/-- Permuting the input batch leaves the ordered group-key list unchanged. -/
lemma groupKeys_perm_eq {rows₁ rows₂ : List Snap} (h : rows₁.Perm rows₂) :
    groupKeys rows₁ = groupKeys rows₂ := by
  unfold groupKeys
  refine List.eq_of_perm_of_sorted ?_ (List.sorted_insertionSort keyLe _)
    (List.sorted_insertionSort keyLe _)
  exact ((List.perm_insertionSort keyLe _).trans
    ((h.map snapPlanKey).dedup)).trans (List.perm_insertionSort keyLe _).symm

/-- The key projection of `mrr_by_plan` output is the ordered key list. -/
lemma mrr_by_plan_keys (rows : List Snap) :
    (mrr_by_plan rows).map (fun x => (x.1, x.2.1)) = groupKeys rows := by
  unfold mrr_by_plan
  rw [List.map_map]
  have hcomp : ((fun x : String × String × ℚ => (x.1, x.2.1)) ∘
      fun k : String × String =>
        (k.1, k.2, mrrAmount (rows.filter (inGroup k)))) = id :=
    funext fun k => rfl
  rw [hcomp, List.map_id]

/-- The key projection of `customers_by_plan` output is the ordered key
list. -/
lemma customers_by_plan_keys (rows : List Snap) :
    (customers_by_plan rows).map (fun x => (x.1, x.2.1)) = groupKeys rows := by
  unfold customers_by_plan
  rw [List.map_map]
  have hcomp : ((fun x : String × String × Nat => (x.1, x.2.1)) ∘
      fun k : String × String =>
        (k.1, k.2, totalCustomers (rows.filter (inGroup k)))) = id :=
    funext fun k => rfl
  rw [hcomp, List.map_id]

/-- C7: `mrr_by_plan` and `customers_by_plan` are stable under any
permutation of the input batch — the two outputs are identical sequences —
and both are ordered by month ascending and, within a month, by plan display
name ascending (the lexicographic key order `keyLe`). -/
theorem byPlan_perm_invariant_and_sorted (rows₁ rows₂ : List Snap)
    (h : rows₁.Perm rows₂) :
    mrr_by_plan rows₁ = mrr_by_plan rows₂ ∧
    customers_by_plan rows₁ = customers_by_plan rows₂ ∧
    List.Sorted keyLe ((mrr_by_plan rows₁).map fun x => (x.1, x.2.1)) ∧
    List.Sorted keyLe ((customers_by_plan rows₁).map fun x => (x.1, x.2.1)) := by
  have hk := groupKeys_perm_eq h
  refine ⟨?_, ?_, ?_, ?_⟩
  · unfold mrr_by_plan
    rw [hk]
    apply List.map_congr_left
    intro k _
    have hsum : ((rows₁.filter (inGroup k)).map Snap.mrr_cents).sum =
        ((rows₂.filter (inGroup k)).map Snap.mrr_cents).sum :=
      ((h.filter (inGroup k)).map Snap.mrr_cents).sum_eq
    simp only [mrrAmount, sumCents, hsum]
  · unfold customers_by_plan
    rw [hk]
    apply List.map_congr_left
    intro k _
    have hlen : ((rows₁.filter (inGroup k)).map Snap.customer_id).dedup.length =
        ((rows₂.filter (inGroup k)).map Snap.customer_id).dedup.length :=
      (((h.filter (inGroup k)).map Snap.customer_id).dedup).length_eq
    simp only [totalCustomers, hlen]
  · rw [mrr_by_plan_keys]
    exact List.sorted_insertionSort keyLe _
  · rw [customers_by_plan_keys]
    exact List.sorted_insertionSort keyLe _

/-- A concrete instance of `byPlan_perm_invariant_and_sorted`: swapping the
two rows of the spec's example batch leaves both by-plan outputs unchanged. -/
theorem byPlan_perm_invariant_and_sorted_witness :
    List.Perm [exA, exB] [exB, exA] ∧
    mrr_by_plan [exA, exB] = mrr_by_plan [exB, exA] ∧
    customers_by_plan [exA, exB] = customers_by_plan [exB, exA] :=
  ⟨List.Perm.swap exB exA [],
    (byPlan_perm_invariant_and_sorted [exA, exB] [exB, exA]
      (List.Perm.swap exB exA [])).1,
    (byPlan_perm_invariant_and_sorted [exA, exB] [exB, exA]
      (List.Perm.swap exB exA [])).2.1⟩

/-- The canonical plan price table (`EXPECTED_PRICES` in
`tests/test_snapshots.py` and `PLAN_PRICES` in `scripts/validate_mrr.py`);
`none` for a plan key outside the closed set. -/
def expectedPrice (p : String) : Option Int :=
  if p = "free" then some 0
  else if p = "standard" then some 1000
  else if p = "pro_plus" then some 1500
  else if p = "engage" then some 3000
  else if p = "enterprise" then some 4500
  else none

/-- One entry of a validation error list.  The Python checks append a
formatted message carrying the row index and, in most checks, the row's
month and customer_id; the embedding records those interpolated fields
explicitly (`month`/`customer` are `none` when the message omits them) next
to the human-readable remainder of the message. -/
structure Violation where
  index : Nat
  month : Option String
  customer : Option String
  reason : String
deriving DecidableEq

/-- The shared loop shape of the integrity checks in
`tests/test_snapshots.py`: walk the batch with `enumerate`, appending one
entry per violating row, never stopping early. -/
def violationsFrom (viol : Snap → Bool) (mk : Nat → Snap → Violation) :
    Nat → List Snap → List Violation
  | _, [] => []
  | i, r :: rest =>
    (if viol r then [mk i r] else []) ++ violationsFrom viol mk (i + 1) rest

/-- Embeds `test_mrr_cents_equals_price_times_screens`: a row violates the MRR-math
invariant when `mrr_cents` differs from `price_amount * screens`. -/
def mrrMathViolates (r : Snap) : Bool :=
  decide (r.mrr_cents ≠ r.price_amount * r.screens)

/-- The error entry appended for an MRR-math violation at row `i`. -/
def mkMrrMathViolation (i : Nat) (r : Snap) : Violation :=
  Violation.mk i (some r.month) (some r.customer_id)
    ("mrr_cents=" ++ toString r.mrr_cents ++ " is not price_amount(" ++
      toString r.price_amount ++ ") * screens(" ++ toString r.screens ++ ")")

/-- The full MRR-math error list for a batch. -/
def mrrMathViolations (rows : List Snap) : List Violation :=
  violationsFrom mrrMathViolates mkMrrMathViolation 0 rows

/-- Embeds `test_screens_positive`: a row violates the screens invariant when
`screens < 1`. -/
def screensViolates (r : Snap) : Bool := decide (r.screens < 1)

/-- The error entry appended for a screens violation at row `i`. -/
def mkScreensViolation (i : Nat) (r : Snap) : Violation :=
  Violation.mk i (some r.month) (some r.customer_id)
    ("screens=" ++ toString r.screens)

/-- The full screens error list for a batch. -/
def screensViolations (rows : List Snap) : List Violation :=
  violationsFrom screensViolates mkScreensViolation 0 rows

/-- Embeds `test_status_field_valid`: a row violates the status invariant when its
status (possibly missing) is neither "active" nor "past_due". -/
def statusViolates (r : Snap) : Bool :=
  decide (r.status ≠ some "active" ∧ r.status ≠ some "past_due")

/-- The error entry appended for a status violation at row `i`. -/
def mkStatusViolation (i : Nat) (r : Snap) : Violation :=
  Violation.mk i (some r.month) (some r.customer_id)
    ("status=" ++ toString r.status)

/-- The full status error list for a batch. -/
def statusViolations (rows : List Snap) : List Violation :=
  violationsFrom statusViolates mkStatusViolation 0 rows

/-- Embeds `test_price_amount_matches_plan`: a row violates the price invariant when
its plan key is unknown or its `price_amount` differs from the canonical
price for its plan. -/
def priceViolates (r : Snap) : Bool :=
  match expectedPrice r.plan with
  | none => true
  | some p => decide (r.price_amount ≠ p)

/-- The error entry appended for a price violation at row `i`.  Mirroring
the test, the unknown-plan branch formats only the row index and plan — no
month or customer — while the mismatch branch carries both. -/
def mkPriceViolation (i : Nat) (r : Snap) : Violation :=
  match expectedPrice r.plan with
  | none => Violation.mk i none none ("unknown plan " ++ r.plan)
  | some p =>
    Violation.mk i (some r.month) (some r.customer_id)
      ("plan " ++ r.plan ++ " has price_amount=" ++ toString r.price_amount ++
        ", expected " ++ toString p)

/-- The full price error list for a batch. -/
def priceViolations (rows : List Snap) : List Violation :=
  violationsFrom priceViolates mkPriceViolation 0 rows

/-- The duplicate-detection key of a row: (month, customer_id). -/
def snapKey (r : Snap) : String × String := (r.month, r.customer_id)

/-- Embeds `test_no_duplicate_customers_per_month`: walk the batch with a set of
seen (month, customer_id) keys, appending one entry per repeated
occurrence. -/
def dupViolationsFrom : Nat → List (String × String) → List Snap → List Violation
  | _, _, [] => []
  | i, seen, r :: rest =>
    if snapKey r ∈ seen then
      Violation.mk i (some r.month) (some r.customer_id)
          "duplicate customer for month" :: dupViolationsFrom (i + 1) seen rest
    else dupViolationsFrom (i + 1) (snapKey r :: seen) rest

/-- The full duplicate error list for a batch. -/
def duplicateViolations (rows : List Snap) : List Violation :=
  dupViolationsFrom 0 [] rows

/-- The check loop never short-circuits: it emits exactly one entry per
violating row. -/
lemma violationsFrom_length (viol : Snap → Bool) (mk : Nat → Snap → Violation)
    (rows : List Snap) : ∀ i : Nat,
    (violationsFrom viol mk i rows).length = (rows.filter viol).length := by
  induction rows with
  | nil => intro i; rfl
  | cons r rest ih =>
    intro i
    cases hv : viol r
    · simp [violationsFrom, hv, List.filter_cons, ih (i + 1)]
    · simp [violationsFrom, hv, List.filter_cons, ih (i + 1)]

/-- Every emitted entry comes from a violating row at its recorded offset. -/
lemma violationsFrom_mem (viol : Snap → Bool) (mk : Nat → Snap → Violation)
    (rows : List Snap) : ∀ i : Nat, ∀ v ∈ violationsFrom viol mk i rows,
    ∃ j r, rows[j]? = some r ∧ viol r = true ∧ v = mk (i + j) r := by
  induction rows with
  | nil => intro i v hv; simp [violationsFrom] at hv
  | cons r rest ih =>
    intro i v hv
    simp only [violationsFrom] at hv
    rcases List.mem_append.mp hv with h | h
    · cases hvr : viol r
      · rw [hvr] at h; simp at h
      · rw [hvr] at h
        simp only [if_true, List.mem_singleton] at h
        exact ⟨0, r, by simp, hvr, by simpa using h⟩
    · obtain ⟨j, r', hj, hv', heq⟩ := ih (i + 1) v h
      refine ⟨j + 1, r', by simpa using hj, hv', ?_⟩
      rw [heq]
      congr 1
      omega

/-- Every violating row gives rise to an entry at its offset. -/
lemma violationsFrom_complete (viol : Snap → Bool) (mk : Nat → Snap → Violation)
    (rows : List Snap) : ∀ (i j : Nat) (r : Snap),
    rows[j]? = some r → viol r = true →
    mk (i + j) r ∈ violationsFrom viol mk i rows := by
  induction rows with
  | nil => intro i j r hj _; simp at hj
  | cons a rest ih =>
    intro i j r hj hv
    cases j with
    | zero =>
      rw [List.getElem?_cons_zero] at hj
      injection hj with hj
      subst hj
      simp only [violationsFrom]
      refine List.mem_append.mpr (Or.inl ?_)
      rw [hv]
      simp
    | succ j =>
      rw [List.getElem?_cons_succ] at hj
      have hmem := ih (i + 1) j r hj hv
      have harith : i + (j + 1) = (i + 1) + j := by omega
      rw [harith]
      simp only [violationsFrom]
      exact List.mem_append.mpr (Or.inr hmem)

/-- Every duplicate entry is tagged with the month and customer_id of a row
of the batch. -/
lemma dupViolationsFrom_tagged (rows : List Snap) :
    ∀ (i : Nat) (seen : List (String × String)),
    ∀ v ∈ dupViolationsFrom i seen rows,
    ∃ r ∈ rows, v.month = some r.month ∧ v.customer = some r.customer_id := by
  induction rows with
  | nil => intro i seen v hv; simp [dupViolationsFrom] at hv
  | cons r rest ih =>
    intro i seen v hv
    simp only [dupViolationsFrom] at hv
    by_cases hmem : snapKey r ∈ seen
    · rw [if_pos hmem] at hv
      rcases List.mem_cons.mp hv with h | h
      · subst h
        exact ⟨r, List.mem_cons_self r rest, rfl, rfl⟩
      · obtain ⟨r', hr', ht⟩ := ih (i + 1) seen v h
        exact ⟨r', List.mem_cons_of_mem r hr', ht⟩
    · rw [if_neg hmem] at hv
      obtain ⟨r', hr', ht⟩ := ih (i + 1) (snapKey r :: seen) v hv
      exact ⟨r', List.mem_cons_of_mem r hr', ht⟩

/-- Counting the duplicate entries carrying the tag (km, kc): a key already
seen contributes one entry per occurrence, a fresh key one entry per
occurrence beyond the first. -/
lemma dupViolationsFrom_count (km kc : String) (rows : List Snap) :
    ∀ (i : Nat) (seen : List (String × String)),
    ((dupViolationsFrom i seen rows).filter
        (fun v => decide (v.month = some km ∧ v.customer = some kc))).length =
      if (km, kc) ∈ seen then (rows.map snapKey).count (km, kc)
      else (rows.map snapKey).count (km, kc) - 1 := by
  induction rows with
  | nil =>
    intro i seen
    simp [dupViolationsFrom]
  | cons r rest ih =>
    intro i seen
    simp only [dupViolationsFrom, List.map_cons]
    by_cases hk : snapKey r = (km, kc)
    · have hfm : r.month = km := congrArg Prod.fst hk
      have hfc : r.customer_id = kc := congrArg Prod.snd hk
      have hcnt : (snapKey r :: rest.map snapKey).count (km, kc) =
          (rest.map snapKey).count (km, kc) + 1 := by
        rw [List.count_cons]
        simp [hk]
      by_cases hmem : snapKey r ∈ seen
      · have hkseen : (km, kc) ∈ seen := hk ▸ hmem
        rw [if_pos hmem, List.filter_cons]
        have hcond : (decide ((some r.month : Option String) = some km ∧
            (some r.customer_id : Option String) = some kc)) = true := by
          simp [hfm, hfc]
        rw [if_pos hcond, List.length_cons, ih (i + 1) seen, hcnt,
          if_pos hkseen, if_pos hkseen]
      · have hkseen : (km, kc) ∉ seen := fun hc => hmem (hk ▸ hc)
        have hkseen' : (km, kc) ∈ snapKey r :: seen := by
          rw [← hk]
          exact List.mem_cons_self _ _
        rw [if_neg hmem, ih (i + 1) (snapKey r :: seen), hcnt,
          if_pos hkseen', if_neg hkseen]
        omega
    · have hcnt : (snapKey r :: rest.map snapKey).count (km, kc) =
          (rest.map snapKey).count (km, kc) := by
        rw [List.count_cons]
        simp [hk]
      by_cases hmem : snapKey r ∈ seen
      · rw [if_pos hmem, List.filter_cons]
        have hcond : (decide ((some r.month : Option String) = some km ∧
            (some r.customer_id : Option String) = some kc)) = false := by
          by_contra hcontra
          have h1 : r.month = km ∧ r.customer_id = kc := by
            simpa using eq_true_of_ne_false hcontra
          exact hk (by simp [snapKey, h1.1, h1.2])
        have hcond' : ¬ ((decide ((some r.month : Option String) = some km ∧
            (some r.customer_id : Option String) = some kc)) = true) := by
          rw [hcond]
          simp
        rw [if_neg hcond', ih (i + 1) seen, hcnt]
      · have hseen' : ((km, kc) ∈ snapKey r :: seen) ↔ ((km, kc) ∈ seen) := by
          constructor
          · intro hc
            rcases List.mem_cons.mp hc with hc | hc
            · exact absurd hc.symm hk
            · exact hc
          · exact List.mem_cons_of_mem _
        rw [if_neg hmem, ih (i + 1) (snapKey r :: seen), hcnt]
        by_cases hs : (km, kc) ∈ seen
        · rw [if_pos (hseen'.mpr hs), if_pos hs]
        · rw [if_neg (fun hc => hs (hseen'.mp hc)), if_neg hs]

/-- A check whose entry constructor records the row's index, month and
customer_id yields a report with one entry per violating row, each entry
tied to its offending row and carrying that row's (month, customer_id). -/
lemma report_complete_tagged (viol : Snap → Bool) (mk : Nat → Snap → Violation)
    (hmk : ∀ (i : Nat) (r : Snap), (mk i r).index = i ∧
      (mk i r).month = some r.month ∧ (mk i r).customer = some r.customer_id)
    (rows : List Snap) :
    (violationsFrom viol mk 0 rows).length = (rows.filter viol).length ∧
    (∀ v ∈ violationsFrom viol mk 0 rows, ∃ j r, rows[j]? = some r ∧
      viol r = true ∧ v.index = j ∧ v.month = some r.month ∧
      v.customer = some r.customer_id) ∧
    (∀ (j : Nat) (r : Snap), rows[j]? = some r → viol r = true →
      ∃ v ∈ violationsFrom viol mk 0 rows, v.index = j ∧
        v.month = some r.month ∧ v.customer = some r.customer_id) := by
  refine ⟨violationsFrom_length viol mk rows 0, ?_, ?_⟩
  · intro v hv
    obtain ⟨j, r, hj, hvr, heq⟩ := violationsFrom_mem viol mk rows 0 v hv
    obtain ⟨h1, h2, h3⟩ := hmk (0 + j) r
    refine ⟨j, r, hj, hvr, ?_, ?_, ?_⟩
    · rw [heq, h1]
      omega
    · rw [heq, h2]
    · rw [heq, h3]
  · intro j r hj hvr
    have hmem := violationsFrom_complete viol mk rows 0 j r hj hvr
    obtain ⟨h1, h2, h3⟩ := hmk (0 + j) r
    refine ⟨mk (0 + j) r, hmem, ?_, h2, h3⟩
    rw [h1]
    omega

/-- C8 (amended): every integrity check reports every violation present,
never short-circuiting on the first — a batch with k violations of a kind
yields a report of exactly k entries, one per violating row at its offset —
and each entry carries the offending row's (month, customer_id) and a
human-readable reason, except that the price check reports a row whose plan
key is outside the canonical price table by row index and plan only, without
(month, customer_id).  For duplicates, every entry carries the month and
customer_id of a row of the batch, and for each key the number of tagged
entries is its occurrence count minus one. -/
theorem validation_reports_all_violations (rows : List Snap) :
    ((mrrMathViolations rows).length = (rows.filter mrrMathViolates).length ∧
      (∀ v ∈ mrrMathViolations rows, ∃ j r, rows[j]? = some r ∧
        mrrMathViolates r = true ∧ v.index = j ∧ v.month = some r.month ∧
        v.customer = some r.customer_id) ∧
      (∀ (j : Nat) (r : Snap), rows[j]? = some r → mrrMathViolates r = true →
        ∃ v ∈ mrrMathViolations rows, v.index = j ∧ v.month = some r.month ∧
          v.customer = some r.customer_id)) ∧
    ((screensViolations rows).length = (rows.filter screensViolates).length ∧
      (∀ v ∈ screensViolations rows, ∃ j r, rows[j]? = some r ∧
        screensViolates r = true ∧ v.index = j ∧ v.month = some r.month ∧
        v.customer = some r.customer_id) ∧
      (∀ (j : Nat) (r : Snap), rows[j]? = some r → screensViolates r = true →
        ∃ v ∈ screensViolations rows, v.index = j ∧ v.month = some r.month ∧
          v.customer = some r.customer_id)) ∧
    ((statusViolations rows).length = (rows.filter statusViolates).length ∧
      (∀ v ∈ statusViolations rows, ∃ j r, rows[j]? = some r ∧
        statusViolates r = true ∧ v.index = j ∧ v.month = some r.month ∧
        v.customer = some r.customer_id) ∧
      (∀ (j : Nat) (r : Snap), rows[j]? = some r → statusViolates r = true →
        ∃ v ∈ statusViolations rows, v.index = j ∧ v.month = some r.month ∧
          v.customer = some r.customer_id)) ∧
    ((priceViolations rows).length = (rows.filter priceViolates).length ∧
      (∀ v ∈ priceViolations rows, ∃ j r, rows[j]? = some r ∧
        priceViolates r = true ∧ v.index = j ∧
        (∀ p : Int, expectedPrice r.plan = some p → v.month = some r.month ∧
          v.customer = some r.customer_id) ∧
        (expectedPrice r.plan = none → v.month = none ∧ v.customer = none)) ∧
      (∀ (j : Nat) (r : Snap), rows[j]? = some r → priceViolates r = true →
        ∃ v ∈ priceViolations rows, v.index = j)) ∧
    ((∀ v ∈ duplicateViolations rows, ∃ r ∈ rows, v.month = some r.month ∧
        v.customer = some r.customer_id) ∧
      ∀ km kc : String,
        ((duplicateViolations rows).filter
            (fun v => decide (v.month = some km ∧
              v.customer = some kc))).length =
          (rows.map snapKey).count (km, kc) - 1) := by
  refine ⟨?_, ?_, ?_, ?_, ?_, ?_⟩
  · exact report_complete_tagged mrrMathViolates mkMrrMathViolation
      (fun i r => ⟨rfl, rfl, rfl⟩) rows
  · exact report_complete_tagged screensViolates mkScreensViolation
      (fun i r => ⟨rfl, rfl, rfl⟩) rows
  · exact report_complete_tagged statusViolates mkStatusViolation
      (fun i r => ⟨rfl, rfl, rfl⟩) rows
  · have hidx : ∀ (i : Nat) (r : Snap), (mkPriceViolation i r).index = i := by
      intro i r
      unfold mkPriceViolation
      cases expectedPrice r.plan <;> rfl
    refine ⟨violationsFrom_length priceViolates mkPriceViolation rows 0, ?_, ?_⟩
    · intro v hv
      obtain ⟨j, r, hj, hvr, heq⟩ :=
        violationsFrom_mem priceViolates mkPriceViolation rows 0 v hv
      refine ⟨j, r, hj, hvr, ?_, ?_, ?_⟩
      · rw [heq, hidx]
        omega
      · intro p hp
        rw [heq]
        unfold mkPriceViolation
        rw [hp]
        exact ⟨rfl, rfl⟩
      · intro hp
        rw [heq]
        unfold mkPriceViolation
        rw [hp]
        exact ⟨rfl, rfl⟩
    · intro j r hj hvr
      have hmem :=
        violationsFrom_complete priceViolates mkPriceViolation rows 0 j r hj hvr
      refine ⟨mkPriceViolation (0 + j) r, hmem, ?_⟩
      rw [hidx]
      omega
  · exact dupViolationsFrom_tagged rows 0 []
  · intro km kc
    have h := dupViolationsFrom_count km kc rows 0 []
    simpa using h

/-- A row with an MRR-math violation, used to instantiate
`validation_reports_all_violations` concretely. -/
def exMrrBad : Snap :=
  Snap.mk "2024-03" "cus_M" "sub_M" "standard" "p_std" 1000 2 999
    (some "active")

/-- A concrete instance of `validation_reports_all_violations`: a one-row
batch with an MRR-math violation yields a one-entry report tagged with the
row's month and customer_id. -/
theorem validation_reports_all_violations_witness :
    (mrrMathViolations [exMrrBad]).length =
      ([exMrrBad].filter mrrMathViolates).length ∧
    ∃ v ∈ mrrMathViolations [exMrrBad], v.index = 0 ∧
      v.month = some exMrrBad.month ∧ v.customer = some exMrrBad.customer_id :=
  ⟨(validation_reports_all_violations [exMrrBad]).1.1,
    (validation_reports_all_violations [exMrrBad]).1.2.2 0 exMrrBad rfl
      (by decide)⟩

/-- A row whose plan key is outside the canonical price table. -/
def exUnknownPlan : Snap :=
  Snap.mk "2024-01" "cus_X" "sub_X" "gold" "price_g" 1000 1 1000
    (some "active")

/-- C8 as stated fails on the code: a batch with one price-kind violation
(an unknown plan key) yields a price report whose single entry carries
neither the offending row's month ("2024-01") nor its customer_id
("cus_X") — only the row index and plan appear in the message. -/
theorem validation_unknown_plan_untagged :
    ([exUnknownPlan].filter priceViolates).length = 1 ∧
    priceViolations [exUnknownPlan] =
      [Violation.mk 0 none none "unknown plan gold"] := by
  constructor
  · rfl
  · rfl

/-- C9: a batch in which exactly two rows share a (month, customer_id) key
produces exactly one duplicate violation carrying that shared key (the
second occurrence is reported, referencing the pair common to both rows). -/
theorem duplicate_pair_single_violation (rows : List Snap) (m c : String)
    (h : (rows.map snapKey).count (m, c) = 2) :
    ((duplicateViolations rows).filter
        (fun v => decide (v.month = some m ∧ v.customer = some c))).length = 1 := by
  have hc := dupViolationsFrom_count m c rows 0 []
  unfold duplicateViolations
  rw [hc]
  simp [h]

/-- First row of a two-row duplicate batch. -/
def dupR1 : Snap :=
  Snap.mk "2024-02" "cus_D" "sub_D1" "standard" "p1" 1000 1 1000
    (some "active")

/-- Second row of a two-row duplicate batch: same month and customer. -/
def dupR2 : Snap :=
  Snap.mk "2024-02" "cus_D" "sub_D2" "pro_plus" "p2" 1500 2 3000
    (some "active")

/-- A concrete instance of `duplicate_pair_single_violation`: two rows with
the key ("2024-02", "cus_D") yield exactly one duplicate violation tagged
with that key. -/
theorem duplicate_pair_single_violation_witness :
    (([dupR1, dupR2].map snapKey).count ("2024-02", "cus_D") = 2) ∧
    ((duplicateViolations [dupR1, dupR2]).filter
        (fun v => decide (v.month = some "2024-02" ∧
          v.customer = some "cus_D"))).length = 1 :=
  ⟨by decide,
    duplicate_pair_single_violation [dupR1, dupR2] "2024-02" "cus_D"
      (by decide)⟩

end MrrPipeline
